import Mathlib

/-!
Verification development for the eval expression-evaluator header.

The C++ source (src/eval.h) is shallowly embedded below.  Strings are
modelled as lists of characters, the base value type Number (a C++ double)
is modelled by the rationals, fallible code returns Except, and the C++
exceptions become an explicit error type.  The only double-specific
behaviours with no exact counterpart over the rationals (transcendental
builtins, non-integral exponents of std::pow, the infinities produced by
floating-point division by zero) are marked in doc comments at the
definitions concerned; no theorem in this file depends on their values.
-/

set_option maxRecDepth 20000

namespace _eval

/-- A token is a fragment of the input string (std::string in the source). -/
abbrev Token := List Char

/-- The evaluation value type (double in the source, modelled by the rationals). -/
abbrev Number := ℚ

/-- Errors thrown by the evaluator; one constructor per throw site of the
source.  The extra constructor ubModZero marks the one place the source
runs into C++ undefined behaviour (integer remainder with zero divisor)
rather than throwing. -/
inductive Err where
  | unrecToken (t : Token)
  | undefinedVar (t : Token)
  | mismatchedParens
  | invalidExpr
  | unrecOp
  | tooManyVals
  | invalidFnInvocation
  | invalidFnNumberArgs (fn : Token) (expected received : Nat)
  | invalidArgType (t : Token)
  | ubModZero
deriving DecidableEq

/-- std::isdigit in the C locale: the ASCII decimal digits. -/
def isDigitChar (c : Char) : Bool := decide (48 ≤ c.toNat ∧ c.toNat ≤ 57)

/-- Type::isLetter, i.e. std::isalpha in the C locale: the ASCII letters. -/
def isLetter (c : Char) : Bool :=
  decide ((65 ≤ c.toNat ∧ c.toNat ≤ 90) ∨ (97 ≤ c.toNat ∧ c.toNat ≤ 122))

/-- The numeric value of a run of decimal digit characters. -/
def natOfDigits (s : List Char) : Nat := s.foldl (fun acc c => 10 * acc + (c.toNat - 48)) 0

/-- Modelled: the IEEE double value (an infinity or a NaN) that strtod
produces for an inf- or nan-shaped string has no counterpart over ℚ, so a
fixed placeholder stands in.  No theorem depends on this value, only on
the fact that such strings are accepted as numbers. -/
def infNanVal : ℚ := 0

/-- strtod's case-insensitive acceptance of inf, infinity and nan shaped
input: the conversion succeeds exactly when the lowercased string starts
with inf or nan (infinity begins with inf), any trailing characters being
ignored as unconverted garbage. -/
def acceptsInfNan (s : List Char) : Bool :=
  match s.map Char.toLower with
  | 'i' :: 'n' :: 'f' :: _ => true
  | 'n' :: 'a' :: 'n' :: _ => true
  | _ => false

/-- The unsigned part of strtod on the token shapes the evaluator can
produce: an inf/nan form (see acceptsInfNan), or a digit run, optionally
with one decimal point and at least one digit.  The other forms strtod
accepts (exponent notation, hexadecimal, a digit prefix followed by
garbage) are unreachable: every token reaching toNumber is a
digit-and-dot run, an all-letters run, an inf/nan-prefixed run (the
tokenizer extends a buffer that isNumber accepts, so digits and dots can
follow an inf/nan prefix but never a bare digit prefix with letters), a
single character, or a Type::toToken rendering, and on all of those this
function agrees with strtod. -/
def parseUnsigned (s : List Char) : Option ℚ :=
  if acceptsInfNan s = true then some infNanVal
  else
    let intPart := s.takeWhile isDigitChar
    let rest := s.dropWhile isDigitChar
    match rest with
    | [] => if intPart = [] then none else some (natOfDigits intPart : ℚ)
    | '.' :: frac =>
        if frac.all isDigitChar ∧ ¬(intPart = [] ∧ frac = []) then
          some ((natOfDigits intPart : ℚ) + (natOfDigits frac : ℚ) / (10 ^ frac.length))
        else none
    | _ => none

/-- Type::toNumber (std::stod), as a partial function: none models the
std::invalid_argument that stod raises when no conversion is possible.
Exact where stod rounds a decimal to the nearest double; inf/nan-shaped
strings are accepted with a placeholder value (see infNanVal). -/
def toNumber (s : Token) : Option ℚ :=
  match s with
  | [] => none
  | c :: rest =>
      if c = '-' then (parseUnsigned rest).map (fun q => -q)
      else if c = '+' then parseUnsigned rest
      else parseUnsigned s

/-- Type::toNumber at call sites guarded by isNumber (where it cannot throw). -/
def toNumberD (s : Token) : ℚ := (toNumber s).getD 0

/-- Type::isNumber on a token: a digit run, or a string std::stod accepts. -/
def isNumber (s : Token) : Bool := (toNumber s).isSome

/-- Type::isNumber on a single character. -/
def isNumberC (c : Char) : Bool := isNumber [c]

/-- Type::containsLettersOnly: every character is alphabetic. -/
def containsLettersOnly (s : Token) : Bool := s.all isLetter

/-- Type::isOperator on a token. -/
def isOperator (s : Token) : Bool :=
  !s.isEmpty &&
    (s == ['+'] || s == ['-'] || s == ['*'] || s == ['/'] || s == ['^'] || s == ['%'])

/-- Type::isOperator on a single character. -/
def isOperatorC (c : Char) : Bool := isOperator [c]

/-- Type::isParenthesis on a token. -/
def isParenthesis (s : Token) : Bool := s == ['('] || s == [')']

/-- Type::isParenthesis on a single character. -/
def isParenthesisC (c : Char) : Bool := isParenthesis [c]

/-- Type::isFunctionSeperator on a token (the spelling is the source's). -/
def isFunctionSeperator (s : Token) : Bool := s == [',']

/-- Type::isFunctionSeperator on a single character. -/
def isFunctionSeperatorC (c : Char) : Bool := isFunctionSeperator [c]

/-- Op::getPriority. -/
def getPriority (s : Token) : Int :=
  if s = ['*'] ∨ s = ['/'] ∨ s = ['%'] then 3
  else if s = ['+'] ∨ s = ['-'] then 2
  else if s = ['^'] then 4
  else -1

/-- Op::isRHS. -/
def isRHS (s : Token) : Bool := s == ['^']

/-- Op::isLHS. -/
def isLHS (s : Token) : Bool := !isRHS s

/-- Op::isUnary on a token. -/
def isUnary (s : Token) : Bool := s == ['-'] || s == ['+']

/-- Op::isUnary on a single character. -/
def isUnaryC (c : Char) : Bool := isUnary [c]

/-- replaceAll from the source, at the shapes of its four call sites
(two-character search string, one-character replacement).  The imperative
loop finds the next occurrence at or after pos, replaces it, and resumes
searching immediately after the inserted character; that is exactly a
single left-to-right scan replacing non-overlapping occurrences in which
the inserted character is never rescanned. -/
def replaceAllGo (x y r a : Char) : List Char → List Char
  | [] => [a]
  | b :: rest =>
      if a = x ∧ b = y then
        r :: (match rest with
              | [] => []
              | c :: rest2 => replaceAllGo x y r c rest2)
      else a :: replaceAllGo x y r b rest

/-- replaceAll entry point: empty strings are returned unchanged. -/
def replaceAll (x y r : Char) (s : List Char) : List Char :=
  match s with
  | [] => []
  | a :: rest => replaceAllGo x y r a rest

/-- rewriteExpression: the four sign-collapsing rewrites, applied in the
source's order, each as one replaceAll pass. -/
def rewriteExpression (exp : List Char) : List Char :=
  replaceAll '-' '-' '+'
    (replaceAll '+' '+' '+'
      (replaceAll '-' '+' '-'
        (replaceAll '+' '-' '-' exp)))

/-- NumberFlags from the source. -/
structure NumberFlags where
  inContext : Bool
  hasDecimal : Bool
deriving DecidableEq

/-- The tokenizer's loop state: the finished tokens, the token under
construction (wip), and the number flags. -/
structure TokState where
  toks : List Token
  wip : Token
  number : NumberFlags
deriving DecidableEq

/-- FINISH_PREV from tokenize: push any in-progress token and reset the
buffer and the decimal flag. -/
def finishPrev (s : TokState) : TokState :=
  { toks := if s.wip = [] then s.toks else s.toks ++ [s.wip]
    wip := []
    number := { inContext := s.number.inContext, hasDecimal := false } }

/-- SINGLE_CHAR_IMPL from tokenize. -/
def singleCharImpl (c : Char) (s : TokState) : TokState :=
  let s := finishPrev s
  { s with toks := s.toks ++ [[c]] }

/-- MULTI_CHAR_IMPL from tokenize; the caller passes the value of its
validates() callback. -/
def multiCharImpl (c : Char) (valid : Bool) (s : TokState) : TokState :=
  if s.wip = [] ∨ valid = true then { s with wip := s.wip ++ [c] }
  else singleCharImpl c s

/-- One iteration of the tokenize character loop. -/
def tokStep (s : TokState) (c : Char) : TokState :=
  if c = ' ' then s
  else if isOperatorC c = true ∨ isParenthesisC c = true ∨ isFunctionSeperatorC c = true then
    let s :=
      if c = '(' then { s with number := { s.number with inContext := false } }
      else if isUnaryC c = true ∧ s.wip = [] ∧ s.number.inContext = false then
        { s with toks := s.toks ++ [['0']], number := { s.number with inContext := true } }
      else s
    singleCharImpl c s
  else if isNumberC c = true then
    let s1 := multiCharImpl c (isNumber s.wip) s
    { s1 with number := { s1.number with inContext := true } }
  else if c = '.' then
    let valid := isNumber s.wip && !s.number.hasDecimal
    let s1 := multiCharImpl c valid s
    if s.wip ≠ [] ∧ valid = true then
      { s1 with number := { s1.number with hasDecimal := true } }
    else s1
  else if isLetter c = true then multiCharImpl c (containsLettersOnly s.wip) s
  else finishPrev s

/-- tokenize from the source. -/
def tokenize (exp : List Char) : List Token :=
  (finishPrev (exp.foldl tokStep
    { toks := [], wip := [], number := { inContext := false, hasDecimal := false } })).toks

/-- FnArgs: the argument vector handed to a function (each entry a BaseVal,
i.e. a string). -/
abbrev FnArgs := List Token

/-- Fn: a user or builtin function.  The source's std::function can throw
(the builtins do, on arity or argument-type violations), hence Except. -/
abbrev Fn := FnArgs → Except Err Number

/-- VarMap, modelled as an association list whose head entry shadows later
ones, matching std::map lookup after the assignments of bindBuiltins. -/
abbrev VarMap := List (Token × Number)

/-- FnMap, modelled like VarMap. -/
abbrev FnMap := List (Token × Fn)

/-- std::map operator[] assignment, up to lookup equivalence: the new
binding shadows any earlier binding of the same key, so the last write to
a key wins. -/
def mapSet {α : Type} (k : Token) (v : α) (m : List (Token × α)) : List (Token × α) :=
  (k, v) :: m

/-- Type::toToken (std::to_string on a double): fixed-point notation with
six fractional digits.  Exact at the integer-valued arguments the claims
exercise; at other rationals it models the decimal rounding of printf
percent-f. -/
def toToken (n : Number) : Token :=
  let m : ℤ := round (|n| * 1000000)
  let ip := m.toNat / 1000000
  let fp := m.toNat % 1000000
  let fs := Nat.toDigits 10 fp
  (if n < 0 then ['-'] else []) ++ Nat.toDigits 10 ip ++ ['.'] ++
    (List.replicate (6 - fs.length) '0' ++ fs)

/-- The parser state of read: the output queue, the operator stack (head is
the top), the name of the function currently being invoked (empty when
none), the expecting-argument flag, and the accumulated argument list. -/
structure ReadState where
  q : List Token
  opStack : List Token
  fnToInvoke : Token
  expectingArg : Bool
  fnArgs : List Token
deriving DecidableEq

/-- The while condition of the operator case of read: pop o2 while o1 is
left-associative with priority at most that of o2, or right-associative
with priority less than that of o2. -/
def shouldPop (o1 o2 : Token) : Bool :=
  (isLHS o1 && decide (getPriority o1 ≤ getPriority o2)) ||
  (isRHS o1 && decide (getPriority o1 < getPriority o2))

/-- The operator-case pop loop of read: returns the operators moved to the
output queue (in order) and the remaining stack. -/
def opPops (o1 : Token) : List Token → List Token × List Token
  | [] => ([], [])
  | top :: rest =>
      if shouldPop o1 top then
        let pr := opPops o1 rest
        (top :: pr.1, pr.2)
      else ([], top :: rest)

/-- EVAL_MOVE_TOP_UNTIL_LEFT_PAREN: move operators to the output queue
until the stack is empty or a left parenthesis is on top; returns the
moved operators (in order) and the remaining stack. -/
def popUntilParen : List Token → List Token × List Token
  | [] => ([], [])
  | top :: rest =>
      if top = ['('] then ([], top :: rest)
      else
        let pr := popUntilParen rest
        (top :: pr.1, pr.2)

/-- The argument-capture resolution of read: substitute the token via the
variable table when bound, else keep it literally. -/
def capArg (vars : VarMap) (t : Token) : Token :=
  match List.lookup t vars with
  | some v => toToken v
  | none => t

/-- One iteration of the token loop of read, dispatching exactly in the
source's order. -/
def readStep (vars : VarMap) (fns : FnMap) (s : ReadState) (token : Token) :
    Except Err ReadState :=
  if s.expectingArg = true ∧ token ≠ [')'] then
    .ok { s with fnArgs := s.fnArgs ++ [capArg vars token], expectingArg := false }
  else if isNumber token = true then
    .ok { s with q := s.q ++ [token] }
  else
    match List.lookup token vars with
    | some v => .ok { s with q := s.q ++ [toToken v] }
    | none =>
        match List.lookup token fns with
        | some _ => .ok { s with fnToInvoke := token }
        | none =>
            if isFunctionSeperator token = true then
              .ok { s with expectingArg := true }
            else if isOperator token = true then
              .ok { s with q := s.q ++ (opPops token s.opStack).1
                           opStack := token :: (opPops token s.opStack).2 }
            else if token = ['('] then
              if s.fnToInvoke ≠ [] then .ok { s with expectingArg := true }
              else .ok { s with opStack := ['('] :: s.opStack }
            else if token = [')'] then
              if s.fnToInvoke ≠ [] then
                match List.lookup s.fnToInvoke fns with
                | some f =>
                    match f s.fnArgs with
                    | .ok n =>
                        .ok { s with q := s.q ++ [toToken n]
                                     fnArgs := []
                                     fnToInvoke := []
                                     expectingArg := false }
                    | .error e => .error e
                | none => .error .invalidFnInvocation
              else
                match (popUntilParen s.opStack).2 with
                | p :: rest =>
                    if p = ['('] then
                      .ok { s with q := s.q ++ (popUntilParen s.opStack).1
                                   opStack := rest }
                    else .error .mismatchedParens
                | [] => .error .mismatchedParens
            else if containsLettersOnly token = true then
              .error (.undefinedVar token)
            else .error (.unrecToken token)

/-- The end-of-input drain of read: pop the remaining operators to the
output queue; a parenthesis among them means mismatched parentheses. -/
def drainOps : List Token → Except Err (List Token)
  | [] => .ok []
  | top :: rest =>
      if isParenthesis top = true then .error .mismatchedParens
      else
        match drainOps rest with
        | .ok l => .ok (top :: l)
        | .error e => .error e

/-- read from the source: tokenize, run the shunting-yard token loop, then
drain the operator stack. -/
def read (str : List Char) (vars : VarMap) (fns : FnMap) : Except Err (List Token) :=
  match (tokenize str).foldlM (readStep vars fns)
      { q := [], opStack := [], fnToInvoke := [], expectingArg := false, fnArgs := [] } with
  | .error e => .error e
  | .ok s =>
      match drainOps s.opStack with
      | .ok popped => .ok (s.q ++ popped)
      | .error e => .error e

/-- C++ integer division: truncation toward zero. -/
def tdivInt (a b : ℤ) : ℤ :=
  let q : ℤ := (a.natAbs / b.natAbs : Nat)
  if (a < 0) = (b < 0) then q else -q

/-- C++ integer remainder (truncated).  Callers must rule out b = 0, which
is undefined behaviour in C++. -/
def tmodInt (a b : ℤ) : ℤ := a - b * tdivInt a b

/-- static_cast from double to int: truncation toward zero.  (The further
undefined behaviour of casting values outside the int range is not
modelled; the integers here are unbounded.) -/
def castInt (x : ℚ) : ℤ := tdivInt x.num x.den

/-- std::pow on doubles, exact at the integral exponents that are the only
ones any claim evaluates; a non-integral exponent yields an irrational (or
NaN) double with no counterpart over ℚ and is mapped to 0 here. -/
def powNumber (L R : ℚ) : ℚ :=
  if R.den = 1 then
    if 0 ≤ R.num then L ^ R.num.toNat else (L ^ R.num.natAbs)⁻¹
  else 0

/-- One operator application of the postfix evaluator queue().  Rational
division by zero yields 0 here where C++ double division yields an
infinity; no theorem below depends on that value.  The percent case
reaches C++ undefined behaviour when the truncated right operand is zero,
reported as the ubModZero marker. -/
def applyOp (t : Token) (L R : ℚ) : Except Err ℚ :=
  if t = ['*'] then .ok (L * R)
  else if t = ['/'] then .ok (L / R)
  else if t = ['+'] then .ok (L + R)
  else if t = ['-'] then .ok (L - R)
  else if t = ['^'] then .ok (powNumber L R)
  else if t = ['%'] then
    if castInt R = 0 then .error .ubModZero
    else .ok ((tmodInt (castInt L) (castInt R) : ℤ) : ℚ)
  else .error .unrecOp

/-- The final check of queue(): exactly one value must remain. -/
def stackFinish (st : List ℚ) : Except Err ℚ :=
  match st with
  | [v] => .ok v
  | _ => .error .tooManyVals

/-- The token loop of queue(), with the value stack as explicit state
(head is the top). -/
def queueGo : List Token → List ℚ → Except Err ℚ
  | [], st => stackFinish st
  | t :: rest, st =>
      if isNumber t = true then queueGo rest (toNumberD t :: st)
      else
        match st with
        | r :: l :: st2 =>
            match applyOp t l r with
            | .ok v => queueGo rest (v :: st2)
            | .error e => .error e
        | _ => .error .invalidExpr

/-- queue from the source: evaluate a postfix token queue. -/
def queue (q : List Token) : Except Err ℚ := queueGo q []

/-- EVAL_FN_IMPL_NUMBER: arity check (exactly one argument), argument-type
check, then delegation to the numeric primitive. -/
def fnImplNumber (name : Token) (f : ℚ → ℚ) : Fn := fun args =>
  match args with
  | [] => .error (.invalidFnNumberArgs name 1 0)
  | [a] =>
      if isNumber a = true then .ok (f (toNumberD a))
      else .error (.invalidArgType a)
  | l => .error (.invalidFnNumberArgs name 1 l.length)

/-- EVAL_FN_IMPL_2NUMBERS: arity check (exactly two arguments), per-argument
type checks, then delegation to the numeric primitive. -/
def fnImpl2Numbers (name : Token) (f : ℚ → ℚ → ℚ) : Fn := fun args =>
  match args with
  | [] => .error (.invalidFnNumberArgs name 2 0)
  | [a, b] =>
      if isNumber a = true then
        if isNumber b = true then .ok (f (toNumberD a) (toNumberD b))
        else .error (.invalidArgType b)
      else .error (.invalidArgType a)
  | l => .error (.invalidFnNumberArgs name 2 l.length)

/-- std::abs on doubles: exact over ℚ. -/
def absPrim (x : ℚ) : ℚ := |x|

/-- std::floor on doubles: exact over ℚ for in-range values. -/
def floorPrim (x : ℚ) : ℚ := (⌊x⌋ : ℤ)

/-- std::ceil on doubles: exact over ℚ for in-range values. -/
def ceilPrim (x : ℚ) : ℚ := (⌈x⌉ : ℤ)

/-- std::trunc on doubles: truncation toward zero. -/
def truncPrim (x : ℚ) : ℚ := (castInt x : ℤ)

/-- std::round on doubles: round half away from zero. -/
def roundPrim (x : ℚ) : ℚ :=
  if x < 0 then -((round (-x) : ℤ) : ℚ) else ((round x : ℤ) : ℚ)

/-- Modelled from the spec: the transcendental math primitives that the
builtins sqrt, cbrt, sin, cos, tan, asin, acos, atan delegate to are
IEEE-double library functions with no exact counterpart over ℚ; the spec
only requires that each builtin validates its argument count and shape
before delegating, and no claim depends on the delegated numeric values,
so a fixed total placeholder stands in for them. -/
def transPrim (_name : Token) (x : ℚ) : ℚ := x

/-- Modelled from the spec: the two-argument primitive std::hypot, a
double operation with no exact counterpart over ℚ; a fixed total
placeholder, as for transPrim. -/
def hypotPrim (x y : ℚ) : ℚ := x + y

namespace Builtins

/-- Modelled from the spec: Builtins::pi is atan(1)*4 on doubles, i.e. the
double nearest the circle constant; its exact value is irrational and no
claim depends on it, so the nearest-double decimal stands in. -/
def pi : ℚ := 3141592653589793 / 1000000000000000

end Builtins

/-- The names bound into the function table by bindBuiltins. -/
def builtinFnNames : List Token :=
  ["abs".toList, "sqrt".toList, "cbrt".toList, "sin".toList, "cos".toList,
   "tan".toList, "asin".toList, "acos".toList, "atan".toList, "floor".toList,
   "ceil".toList, "trunc".toList, "round".toList, "hypot".toList]

/-- bindBuiltins from the source: assign the builtin constant and functions
into (copies of) the caller's tables, in the source's order, each
assignment shadowing any same-named caller entry. -/
def bindBuiltins (vars : VarMap) (fns : FnMap) : VarMap × FnMap :=
  let vars := mapSet "pi".toList Builtins.pi vars
  let fns := mapSet "abs".toList (fnImplNumber "abs".toList absPrim) fns
  let fns := mapSet "sqrt".toList (fnImplNumber "sqrt".toList (transPrim "sqrt".toList)) fns
  let fns := mapSet "cbrt".toList (fnImplNumber "cbrt".toList (transPrim "cbrt".toList)) fns
  let fns := mapSet "sin".toList (fnImplNumber "sin".toList (transPrim "sin".toList)) fns
  let fns := mapSet "cos".toList (fnImplNumber "cos".toList (transPrim "cos".toList)) fns
  let fns := mapSet "tan".toList (fnImplNumber "tan".toList (transPrim "tan".toList)) fns
  let fns := mapSet "asin".toList (fnImplNumber "asin".toList (transPrim "asin".toList)) fns
  let fns := mapSet "acos".toList (fnImplNumber "acos".toList (transPrim "acos".toList)) fns
  let fns := mapSet "atan".toList (fnImplNumber "atan".toList (transPrim "atan".toList)) fns
  let fns := mapSet "floor".toList (fnImplNumber "floor".toList floorPrim) fns
  let fns := mapSet "ceil".toList (fnImplNumber "ceil".toList ceilPrim) fns
  let fns := mapSet "trunc".toList (fnImplNumber "trunc".toList truncPrim) fns
  let fns := mapSet "round".toList (fnImplNumber "round".toList roundPrim) fns
  let fns := mapSet "hypot".toList (fnImpl2Numbers "hypot".toList hypotPrim) fns
  (vars, fns)

end _eval

/-- The free-function entry point eval: strip spaces, short-circuit the
empty string to 0, bind the builtins into the per-call copies of the
caller's tables, then read and evaluate. -/
def eval (str : List Char) (vars : _eval.VarMap) (fns : _eval.FnMap) :
    Except _eval.Err _eval.Number :=
  let str := str.filter (fun c => !(c == ' '))
  if str = [] then .ok 0
  else
    let vf := _eval.bindBuiltins vars fns
    match _eval.read (_eval.rewriteExpression str) vf.1 vf.2 with
    | .error e => .error e
    | .ok q => _eval.queue q

/-- Modelled from the spec: the removeAllWhitespace function of the
whitespace-idempotence testable property, which strips every whitespace
character from the input; it appears only in the spec, not in the source. -/
def removeAllWhitespace (s : List Char) : List Char :=
  s.filter (fun c => !c.isWhitespace)

/-- A second description of one replaceAll pass, written to the spec's
words (a single non-recursive left-to-right scan replacing non-overlapping
occurrences), as an accumulator loop, for comparison with the source's
replaceAll. -/
def specSinglePassGo (x y r : Char) : List Char → List Char → List Char
  | acc, [] => acc.reverse
  | acc, [a] => (a :: acc).reverse
  | acc, a :: b :: rest =>
      if a = x ∧ b = y then specSinglePassGo x y r (r :: acc) rest
      else specSinglePassGo x y r (a :: acc) (b :: rest)
termination_by _ l => l.length

/-- Entry point of the spec-side single pass. -/
def specSinglePass (x y r : Char) (s : List Char) : List Char :=
  specSinglePassGo x y r [] s

/-- Decidable equality for Except results, so that concrete runs of the
evaluator can be settled by decide. -/
instance {ε α : Type} [DecidableEq ε] [DecidableEq α] : DecidableEq (Except ε α) := fun a b =>
  match a, b with
  | .ok x, .ok y =>
      if h : x = y then isTrue (by rw [h]) else isFalse (fun hc => h (Except.ok.inj hc))
  | .error e, .error f =>
      if h : e = f then isTrue (by rw [h]) else isFalse (fun hc => h (Except.error.inj hc))
  | .ok _, .error _ => isFalse (fun hc => Except.noConfusion hc)
  | .error _, .ok _ => isFalse (fun hc => Except.noConfusion hc)

section Helpers

open _eval

/-- The step equation of the replaceAll scan loop on a two-element head. -/
theorem replaceAllGo_cons (x y r a b : Char) (rest : List Char) :
    replaceAllGo x y r a (b :: rest) =
      if a = x ∧ b = y then r :: replaceAll x y r rest
      else a :: replaceAllGo x y r b rest := by
  cases rest <;> rfl

/-- One replaceAll step on a matched pair. -/
theorem replaceAll_cons_match {x y r a b : Char} (rest : List Char) (h : a = x ∧ b = y) :
    replaceAll x y r (a :: b :: rest) = r :: replaceAll x y r rest := by
  rw [show replaceAll x y r (a :: b :: rest) = replaceAllGo x y r a (b :: rest) from rfl,
    replaceAllGo_cons, if_pos h]

/-- One replaceAll step on an unmatched pair. -/
theorem replaceAll_cons_nomatch {x y r a b : Char} (rest : List Char) (h : ¬(a = x ∧ b = y)) :
    replaceAll x y r (a :: b :: rest) = a :: replaceAll x y r (b :: rest) := by
  rw [show replaceAll x y r (a :: b :: rest) = replaceAllGo x y r a (b :: rest) from rfl,
    replaceAllGo_cons, if_neg h]
  rfl

/-- The accumulator loop of the spec-side single pass computes the same
scan as the source's replaceAll. -/
theorem specSinglePassGo_eq (x y r : Char) :
    ∀ (n : Nat) (l : List Char), l.length ≤ n → ∀ acc : List Char,
      specSinglePassGo x y r acc l = acc.reverse ++ replaceAll x y r l := by
  intro n
  induction n with
  | zero =>
      intro l hl acc
      have hnil : l = [] := List.length_eq_zero.mp (Nat.le_zero.mp hl)
      subst hnil
      simp [specSinglePassGo, replaceAll]
  | succ n ih =>
      intro l hl acc
      match l with
      | [] => simp [specSinglePassGo, replaceAll]
      | [a] => simp [specSinglePassGo, replaceAll, replaceAllGo]
      | a :: b :: rest =>
          by_cases hab : a = x ∧ b = y
          · rw [specSinglePassGo, if_pos hab,
              ih rest (by simp at hl; omega) (r :: acc),
              replaceAll_cons_match rest hab]
            simp
          · rw [specSinglePassGo, if_neg hab,
              ih (b :: rest) (by simp at hl ⊢; omega) (a :: acc),
              replaceAll_cons_nomatch rest hab]
            simp

/-- The spec-side single pass agrees with the source's replaceAll. -/
theorem specSinglePass_eq (x y r : Char) (s : List Char) :
    specSinglePass x y r s = replaceAll x y r s := by
  rw [specSinglePass, specSinglePassGo_eq x y r s.length s le_rfl []]
  simp

end Helpers

/-- C1: evaluation applies the spec's precedences (* / % at priority 3,
+ - at 2, ^ at 4), with ^ the only right-associative operator and every
other operator left-associative; in particular 2^3^2 right-associates to
512 and 2-3-2 left-associates to -3. -/
theorem C1_precedence_and_associativity :
    _eval.getPriority ['*'] = 3 ∧ _eval.getPriority ['/'] = 3 ∧ _eval.getPriority ['%'] = 3 ∧
    _eval.getPriority ['+'] = 2 ∧ _eval.getPriority ['-'] = 2 ∧ _eval.getPriority ['^'] = 4 ∧
    _eval.isRHS ['^'] = true ∧ _eval.isRHS ['*'] = false ∧ _eval.isRHS ['/'] = false ∧
    _eval.isRHS ['%'] = false ∧ _eval.isRHS ['+'] = false ∧ _eval.isRHS ['-'] = false ∧
    (∀ t : _eval.Token, _eval.isLHS t = !_eval.isRHS t) ∧
    eval "2^3^2".toList [] [] = .ok 512 ∧
    eval "2-3-2".toList [] [] = .ok (-3) :=
  ⟨by decide, by decide, by decide, by decide, by decide, by decide,
   by decide, by decide, by decide, by decide, by decide, by decide,
   fun _ => rfl, by with_unfolding_all rfl, by with_unfolding_all rfl⟩

/-- C2: the claim promises that every well-formed expression over numbers,
the six operators and balanced parentheses evaluates with no error and no
undefined behaviour, division and modulo edge cases included.  The
well-formed input 5%0 falsifies this for the code: queue() computes
static_cast int of both operands and takes the C++ percent remainder,
which is undefined behaviour when the right operand truncates to zero;
the embedding reports that state as the ubModZero marker. -/
theorem C2_modulo_by_zero_ub : eval "5%0".toList [] [] = .error .ubModZero := by
  with_unfolding_all rfl

/-- C5: during tokenization a + or - read with an empty build buffer and
no number yet in the current parenthesis scope pushes an explicit 0 token
before the sign and marks the scope as containing a number, and reading a
left parenthesis resets the in-number-context flag, so the synthesis
recurs inside each new parenthesis scope; in particular -3 tokenizes as
0, -, 3. -/
theorem C5_unary_zero_synthesis :
    (∀ (s : _eval.TokState) (c : Char), (c = '+' ∨ c = '-') → s.wip = [] →
        s.number.inContext = false →
        _eval.tokStep s c =
          { toks := s.toks ++ [['0'], [c]], wip := []
            number := { inContext := true, hasDecimal := false } }) ∧
    (∀ s : _eval.TokState, (_eval.tokStep s '(').number.inContext = false) ∧
    _eval.tokenize "-3".toList = [['0'], ['-'], ['3']] := by
  refine ⟨?_, ?_, by decide⟩
  · intro s c hc hw hctx
    rcases hc with rfl | rfl <;>
      simp [_eval.tokStep, _eval.isOperatorC, _eval.isOperator, _eval.isUnaryC, _eval.isUnary,
        _eval.singleCharImpl, _eval.finishPrev, hw, hctx]
  · intro s
    obtain ⟨toks, wip, ic, hd⟩ := s
    cases wip <;> rfl

/-- Witness for C5 at the concrete state reached before reading the sign
of -3. -/
theorem C5_unary_zero_synthesis_witness :
    _eval.tokStep { toks := [], wip := [], number := { inContext := false, hasDecimal := false } } '-' =
      { toks := [] ++ [['0'], ['-']], wip := []
        number := { inContext := true, hasDecimal := false } } ∧
    (_eval.tokStep { toks := [], wip := [], number := { inContext := false, hasDecimal := false } }
        '(').number.inContext = false :=
  ⟨C5_unary_zero_synthesis.1 _ '-' (Or.inr rfl) rfl rfl, C5_unary_zero_synthesis.2.1 _⟩

/-- C6: the rewriter is exactly the four literal substring replacements
+- to -, -+ to -, ++ to +, -- to + applied in that fixed order, each a
single non-recursive left-to-right scan over non-overlapping occurrences
(the spec-side scan is a second, independently written definition); there
is no fixpoint iteration, witnessed by ++- whose image +- still contains
the first rule's pattern, so applying the rewriter again changes it. -/
theorem C6_rewriter_single_pass :
    (∀ s : List Char, _eval.rewriteExpression s =
        specSinglePass '-' '-' '+'
          (specSinglePass '+' '+' '+'
            (specSinglePass '-' '+' '-'
              (specSinglePass '+' '-' '-' s)))) ∧
    _eval.rewriteExpression "+--".toList = "+".toList ∧
    _eval.rewriteExpression "++-".toList = "+-".toList ∧
    _eval.rewriteExpression (_eval.rewriteExpression "++-".toList) ≠
      _eval.rewriteExpression "++-".toList := by
  refine ⟨?_, by decide, by decide, by decide⟩
  intro s
  rw [specSinglePass_eq, specSinglePass_eq, specSinglePass_eq, specSinglePass_eq]
  rfl

section HelpersWhitespace

open _eval

/-- Filtering out spaces is idempotent. -/
theorem filter_space_idem (s : List Char) :
    (s.filter (fun c => !(c == ' '))).filter (fun c => !(c == ' ')) =
      s.filter (fun c => !(c == ' ')) := by
  induction s with
  | nil => rfl
  | cons a t ih =>
      by_cases ha : a = ' '
      · subst ha; simp [List.filter, ih]
      · have hb : (a == ' ') = false := beq_eq_false_iff_ne.mpr ha
        simp [List.filter, hb, ih]

/-- eval only sees its input through the space-stripped string. -/
theorem eval_filter_space (s : List Char) (vars : VarMap) (fns : FnMap) :
    eval s vars fns = eval (s.filter (fun c => !(c == ' '))) vars fns := by
  simp only [eval, filter_space_idem]

/-- On a string whose only whitespace characters are spaces, stripping all
whitespace coincides with stripping spaces. -/
theorem filter_whitespace_of_space_only (s : List Char)
    (h : ∀ c ∈ s, c.isWhitespace = true → c = ' ') :
    removeAllWhitespace s = s.filter (fun c => !(c == ' ')) := by
  unfold removeAllWhitespace
  induction s with
  | nil => rfl
  | cons a t ih =>
      have ht := ih (fun c hc hw => h c (List.mem_cons_of_mem _ hc) hw)
      by_cases ha : a = ' '
      · subst ha; simp [List.filter, ht]
      · have hw : a.isWhitespace = false := by
          cases hws : a.isWhitespace
          · rfl
          · exact absurd (h a (List.mem_cons_self _ _) hws) ha
        have hb : (a == ' ') = false := beq_eq_false_iff_ne.mpr ha
        simp [List.filter, hw, hb, ht]

end HelpersWhitespace

/-- C4: the claim extends whitespace-stripping idempotence to every
whitespace character, but both eval and the tokenizer handle only the
space character; a tab is silently dropped by the tokenizer while still
separating tokens, so on the input 1-tab-2 eval errors with too-many
values whereas stripping all whitespace first yields 12. -/
theorem C4_counterexample :
    eval "1\t2".toList [] [] = .error .tooManyVals ∧
    eval (removeAllWhitespace "1\t2".toList) [] [] = .ok 12 ∧
    eval "1\t2".toList [] [] ≠ eval (removeAllWhitespace "1\t2".toList) [] [] := by
  have h1 : eval "1\t2".toList [] [] = .error .tooManyVals := by with_unfolding_all rfl
  have h2 : eval (removeAllWhitespace "1\t2".toList) [] [] = .ok 12 := by
    with_unfolding_all rfl
  refine ⟨h1, h2, ?_⟩
  rw [h1, h2]
  exact fun hc => Except.noConfusion hc

/-- C4 amended: stripping the space character never changes the outcome,
and on inputs whose only whitespace is the space character the claimed
identity evaluate(s) = evaluate(removeAllWhitespace(s)) holds; for other
whitespace characters it fails (see the counterexample). -/
theorem C4_whitespace_idempotence_amended (s : List Char) (vars : _eval.VarMap)
    (fns : _eval.FnMap) (h : ∀ c ∈ s, c.isWhitespace = true → c = ' ') :
    eval s vars fns = eval (removeAllWhitespace s) vars fns := by
  rw [filter_whitespace_of_space_only s h]
  exact eval_filter_space s vars fns

/-- Witness for C4 amended on a concrete space-only input. -/
theorem C4_whitespace_idempotence_witness :
    (∀ c ∈ "1 + 2".toList, c.isWhitespace = true → c = ' ') ∧
    eval "1 + 2".toList [] [] = eval (removeAllWhitespace "1 + 2".toList) [] [] :=
  ⟨by decide, C4_whitespace_idempotence_amended _ [] [] (by decide)⟩

/-- C7: the claim says a zero-value final stack can only arise for empty
input, which short-circuits to 0 earlier; but the non-empty input ()
parses to an empty postfix queue, reaches the postfix stage with zero
values on the stack, and fails with the too-many-values error. -/
theorem C7_counterexample :
    ("()".toList.filter (fun c => !(c == ' ')) ≠ []) ∧
    _eval.read (_eval.rewriteExpression ("()".toList.filter (fun c => !(c == ' '))))
        (_eval.bindBuiltins [] []).1 (_eval.bindBuiltins [] []).2 = .ok [] ∧
    eval "()".toList [] [] = .error .tooManyVals := by
  refine ⟨by decide, ?_, ?_⟩ <;> with_unfolding_all rfl

/-- C7 amended: postfix evaluation succeeds exactly when one value
remains, and any other remaining count, zero included, signals the
too-many-values error; the zero case is reachable for non-empty inputs
whose tokens are all consumed structurally, while empty or all-space
input short-circuits to 0 before this stage. -/
theorem C7_single_result_amended :
    (∀ (st : List ℚ) (v : ℚ), _eval.stackFinish st = .ok v ↔ st = [v]) ∧
    (∀ st : List ℚ, st.length ≠ 1 → _eval.stackFinish st = .error .tooManyVals) ∧
    (∀ st : List ℚ, _eval.queueGo [] st = _eval.stackFinish st) ∧
    eval [] [] [] = .ok 0 ∧
    eval "   ".toList [] [] = .ok 0 := by
  refine ⟨?_, ?_, fun _ => rfl, rfl, by with_unfolding_all rfl⟩
  · intro st v
    match st with
    | [] => simp [_eval.stackFinish]
    | [a] => simp [_eval.stackFinish]
    | a :: b :: t => simp [_eval.stackFinish]
  · intro st h
    match st with
    | [] => rfl
    | [a] => exact absurd rfl h
    | a :: b :: t => rfl

/-- Witness for C7 amended at concrete stacks. -/
theorem C7_single_result_witness :
    _eval.stackFinish [5] = .ok 5 ∧ _eval.stackFinish [] = .error .tooManyVals :=
  ⟨(C7_single_result_amended.1 [5] 5).mpr rfl,
   C7_single_result_amended.2.1 [] (by decide)⟩

section HelpersParens

open _eval

/-- The stack left by the paren pop loop is empty or starts with a left
parenthesis. -/
theorem popUntilParen_rest_shape (st : List Token) :
    (popUntilParen st).2 = [] ∨ ∃ r, (popUntilParen st).2 = ['('] :: r := by
  induction st with
  | nil => exact Or.inl rfl
  | cons top rest ih =>
      by_cases h : top = ['(']
      · subst h
        exact Or.inr ⟨rest, by simp [popUntilParen]⟩
      · simpa [popUntilParen, h] using ih

/-- The paren pop loop exhausts the stack exactly when it holds no left
parenthesis. -/
theorem popUntilParen_rest_nil_iff (st : List Token) :
    (popUntilParen st).2 = [] ↔ ['('] ∉ st := by
  induction st with
  | nil => simp [popUntilParen]
  | cons top rest ih =>
      by_cases h : top = ['(']
      · subst h; simp [popUntilParen]
      · simp [popUntilParen, h, ih, Ne.symm h]

/-- The end-of-input drain either succeeds or reports mismatched
parentheses. -/
theorem drainOps_cases (st : List Token) :
    (∃ l, drainOps st = .ok l) ∨ drainOps st = .error .mismatchedParens := by
  induction st with
  | nil => exact Or.inl ⟨[], rfl⟩
  | cons top rest ih =>
      by_cases h : isParenthesis top = true
      · exact Or.inr (by simp [drainOps, h])
      · rcases ih with ⟨l, hl⟩ | he
        · exact Or.inl ⟨top :: l, by simp [drainOps, h, hl]⟩
        · exact Or.inr (by simp [drainOps, h, he])

end HelpersParens

/-- C8: the claim says MismatchedParentheses is raised exactly when the
parentheses are unbalanced; but an unbalanced left parenthesis that is
consumed by function-call argument handling never reaches the operator
stack, so the unbalanced input sqrt( instead fails at the postfix stage
with the too-many-values error. -/
theorem C8_counterexample :
    ("sqrt(".toList.count '(' ≠ "sqrt(".toList.count ')') ∧
    eval "sqrt(".toList [] [] = .error .tooManyVals ∧
    eval "sqrt(".toList [] [] ≠ .error .mismatchedParens := by
  have h : eval "sqrt(".toList [] [] = .error .tooManyVals := by with_unfolding_all rfl
  refine ⟨by decide, h, ?_⟩
  rw [h]
  intro hc
  exact _eval.Err.noConfusion (Except.error.inj hc)

/-- C8 amended: outside a pending function invocation the two cited
detection sites behave as described and are the exact characterizations
there: reading a right parenthesis fails with MismatchedParentheses if
and only if the operator stack holds no left parenthesis, and the
end-of-input drain fails with it if and only if a parenthesis remains on
the stack; evaluate of the string (2+3 raises exactly this error.
Unbalanced parentheses absorbed by function-argument handling can surface
as a different error instead (see the counterexample). -/
theorem C8_mismatched_parens_amended :
    (∀ (vars : _eval.VarMap) (fns : _eval.FnMap) (s : _eval.ReadState),
        s.expectingArg = false → s.fnToInvoke = [] →
        List.lookup [')'] vars = none → List.lookup [')'] fns = none →
        (_eval.readStep vars fns s [')'] = .error .mismatchedParens ↔
          ['('] ∉ s.opStack)) ∧
    (∀ stack : List _eval.Token,
        _eval.drainOps stack = .error .mismatchedParens ↔
          ∃ t ∈ stack, _eval.isParenthesis t = true) ∧
    eval "(2+3".toList [] [] = .error .mismatchedParens := by
  refine ⟨?_, ?_, by with_unfolding_all rfl⟩
  · intro vars fns s hexp hfn hv hf
    have h1 : _eval.isNumber [')'] = false := by decide
    have h2 : _eval.isFunctionSeperator [')'] = false := by decide
    have h3 : _eval.isOperator [')'] = false := by decide
    simp only [_eval.readStep, hexp, hv, hf, hfn, h1, h2, h3]
    norm_num
    rcases popUntilParen_rest_shape s.opStack with h | ⟨r, h⟩
    · rw [h]
      simp [(popUntilParen_rest_nil_iff s.opStack).mp h]
    · have hmem : ['('] ∈ s.opStack := by
        by_contra hn
        rw [(popUntilParen_rest_nil_iff s.opStack).mpr hn] at h
        exact List.noConfusion h
      rw [h]
      simp [hmem]
  · intro stack
    induction stack with
    | nil => simp [_eval.drainOps]
    | cons top rest ih =>
        by_cases h : _eval.isParenthesis top = true
        · have hd : _eval.drainOps (top :: rest) = .error .mismatchedParens := by
            simp [_eval.drainOps, h]
          rw [hd]
          constructor
          · intro _
            exact ⟨top, List.mem_cons_self _ _, h⟩
          · intro _
            rfl
        · rcases drainOps_cases rest with ⟨l, hl⟩ | he
          · have hd : _eval.drainOps (top :: rest) = .ok (top :: l) := by
              simp [_eval.drainOps, h, hl]
            rw [hd]
            constructor
            · intro hc
              exact Except.noConfusion hc
            · rintro ⟨t, htmem, hp⟩
              rcases List.mem_cons.mp htmem with rfl | htr
              · exact absurd hp h
              · have h2 := ih.mpr ⟨t, htr, hp⟩
                rw [hl] at h2
                exact Except.noConfusion h2
          · have hd : _eval.drainOps (top :: rest) = .error .mismatchedParens := by
              simp [_eval.drainOps, h, he]
            rw [hd]
            constructor
            · intro _
              obtain ⟨t, ht, hp⟩ := ih.mp he
              exact ⟨t, List.mem_cons_of_mem _ ht, hp⟩
            · intro _
              rfl

/-- Witness for C8 amended at concrete states. -/
theorem C8_mismatched_parens_witness :
    _eval.readStep [] []
        { q := [], opStack := [], fnToInvoke := [], expectingArg := false, fnArgs := [] }
        [')'] = .error .mismatchedParens ∧
    _eval.drainOps [['(']] = .error .mismatchedParens :=
  ⟨(C8_mismatched_parens_amended.1 [] [] _ rfl rfl rfl rfl).mpr (by decide),
   (C8_mismatched_parens_amended.2.1 [['(']]).mpr ⟨['('], by decide, by decide⟩⟩

/-- C9: eval binds the builtins into per-call copies of the caller's
tables (the free function takes both tables by value and Lean's pure
embedding passes values, so the caller's own tables cannot change); the
merge assigns the builtins after copying, so the last write wins and a
builtin such as pi or sqrt shadows a same-named caller entry for the
call, while lookups of every non-builtin name still see the caller's
entries. -/
theorem C9_builtin_merge :
    (∀ (vars : _eval.VarMap) (fns : _eval.FnMap),
        List.lookup "pi".toList (_eval.bindBuiltins vars fns).1 = some _eval.Builtins.pi) ∧
    (∀ (vars : _eval.VarMap) (fns : _eval.FnMap),
        List.lookup "sqrt".toList (_eval.bindBuiltins vars fns).2 =
          some (_eval.fnImplNumber "sqrt".toList (_eval.transPrim "sqrt".toList))) ∧
    (∀ (vars : _eval.VarMap) (fns : _eval.FnMap) (n : _eval.Token), n ≠ "pi".toList →
        List.lookup n (_eval.bindBuiltins vars fns).1 = List.lookup n vars) ∧
    (∀ (vars : _eval.VarMap) (fns : _eval.FnMap) (n : _eval.Token),
        n ∉ _eval.builtinFnNames →
        List.lookup n (_eval.bindBuiltins vars fns).2 = List.lookup n fns) := by
  have key : ∀ {α : Type} (k n : _eval.Token) (v : α) (m : List (_eval.Token × α)),
      n ≠ k → List.lookup n (_eval.mapSet k v m) = List.lookup n m := by
    intro α k n v m h
    simp [_eval.mapSet, List.lookup, beq_eq_false_iff_ne.mpr h]
  refine ⟨fun vars fns => rfl, fun vars fns => rfl, ?_, ?_⟩
  · intro vars fns n hn
    exact key _ _ _ _ hn
  · intro vars fns n hn
    simp only [_eval.builtinFnNames, List.mem_cons, List.not_mem_nil, or_false, not_or] at hn
    obtain ⟨h1, h2, h3, h4, h5, h6, h7, h8, h9, h10, h11, h12, h13, h14⟩ := hn
    show List.lookup n (_eval.mapSet "hypot".toList _
      (_eval.mapSet "round".toList _ (_eval.mapSet "trunc".toList _
        (_eval.mapSet "ceil".toList _ (_eval.mapSet "floor".toList _
          (_eval.mapSet "atan".toList _ (_eval.mapSet "acos".toList _
            (_eval.mapSet "asin".toList _ (_eval.mapSet "tan".toList _
              (_eval.mapSet "cos".toList _ (_eval.mapSet "sin".toList _
                (_eval.mapSet "cbrt".toList _ (_eval.mapSet "sqrt".toList _
                  (_eval.mapSet "abs".toList _ fns)))))))))))))) = List.lookup n fns
    rw [key _ _ _ _ h14, key _ _ _ _ h13, key _ _ _ _ h12, key _ _ _ _ h11,
      key _ _ _ _ h10, key _ _ _ _ h9, key _ _ _ _ h8, key _ _ _ _ h7,
      key _ _ _ _ h6, key _ _ _ _ h5, key _ _ _ _ h4, key _ _ _ _ h3,
      key _ _ _ _ h2, key _ _ _ _ h1]

/-- Witness for C9 at concrete tables: a caller-supplied pi is shadowed by
the builtin for the call, and non-builtin names still resolve to the
caller's entries. -/
theorem C9_builtin_merge_witness :
    List.lookup "pi".toList (_eval.bindBuiltins [("pi".toList, 99)] []).1 =
      some _eval.Builtins.pi ∧
    List.lookup "myvar".toList (_eval.bindBuiltins [("myvar".toList, 5)] []).1 =
      List.lookup "myvar".toList [("myvar".toList, 5)] ∧
    List.lookup "g".toList
        (_eval.bindBuiltins [] [("g".toList, fun _ => Except.ok (1 : ℚ))]).2 =
      List.lookup "g".toList [("g".toList, fun _ => Except.ok (1 : ℚ))] :=
  ⟨C9_builtin_merge.1 _ _,
   C9_builtin_merge.2.2.1 _ _ _ (by decide),
   C9_builtin_merge.2.2.2 _ _ _ (by decide)⟩

section HelpersLetters

open _eval

/-- An ASCII letter is not a sign, not a decimal point, and not a digit. -/
theorem isLetter_facts (c : Char) (h : isLetter c = true) :
    c ≠ '-' ∧ c ≠ '+' ∧ c ≠ '.' ∧ isDigitChar c = false := by
  refine ⟨?_, ?_, ?_, ?_⟩
  · rintro rfl; exact absurd h (by decide)
  · rintro rfl; exact absurd h (by decide)
  · rintro rfl; exact absurd h (by decide)
  · simp only [isLetter, decide_eq_true_eq] at h
    simp only [isDigitChar, decide_eq_false_iff_not, not_and]
    omega

/-- A non-empty all-letters token that is not inf/nan-shaped (the one
letters-only family std::stod accepts) is not accepted by isNumber. -/
theorem lettersOnly_not_number (t : Token) (hl : containsLettersOnly t = true)
    (hne : t ≠ []) (hinf : acceptsInfNan t = false) : isNumber t = false := by
  match t with
  | [] => exact absurd rfl hne
  | c :: rest =>
      have hc : isLetter c = true := by
        simp only [containsLettersOnly, List.all_cons, Bool.and_eq_true] at hl
        exact hl.1
      obtain ⟨hm, hp, hdot, hdig⟩ := isLetter_facts c hc
      have h1 : (c :: rest).takeWhile isDigitChar = [] := by
        simp [List.takeWhile_cons, hdig]
      have h2 : (c :: rest).dropWhile isDigitChar = c :: rest := by
        simp [List.dropWhile_cons, hdig]
      simp only [isNumber, toNumber, if_neg hm, if_neg hp, parseUnsigned, hinf, h1, h2,
        Bool.false_eq_true, if_false]
      split
      · rename_i heq
        exact absurd heq (by simp)
      · rename_i frac heq
        exfalso
        injection heq with hh1 hh2
        exact hdot hh1
      · rfl

/-- A token satisfying isOperator is one of the six operator symbols. -/
theorem isOperator_cases (t : Token) (h : isOperator t = true) :
    t = ['+'] ∨ t = ['-'] ∨ t = ['*'] ∨ t = ['/'] ∨ t = ['^'] ∨ t = ['%'] := by
  simp only [isOperator, Bool.and_eq_true, Bool.or_eq_true, beq_iff_eq] at h
  tauto

/-- An all-letters token is none of the structural tokens of the parser. -/
theorem lettersOnly_structural (t : Token) (hl : containsLettersOnly t = true) :
    t ≠ [','] ∧ t ≠ ['('] ∧ t ≠ [')'] ∧ isOperator t = false ∧
      isFunctionSeperator t = false := by
  have hcomma : t ≠ [','] := by rintro rfl; exact absurd hl (by decide)
  have hop : isOperator t = false := by
    cases ho : isOperator t
    · rfl
    · exfalso
      rcases isOperator_cases t ho with rfl | rfl | rfl | rfl | rfl | rfl <;>
        exact absurd hl (by decide)
  refine ⟨hcomma, ?_, ?_, hop, ?_⟩
  · rintro rfl; exact absurd hl (by decide)
  · rintro rfl; exact absurd hl (by decide)
  · simp only [isFunctionSeperator]
    exact beq_eq_false_iff_ne.mpr hcomma

end HelpersLetters

/-- C3: the claim says an unbound all-letters token always fails the call
with UndefinedVariable, including in function-argument position; but in
argument-capture position the parser keeps the token literally (or
substitutes a bound variable) and never raises UndefinedVariable, so with
a caller function f that ignores its argument, f(foo) succeeds with 1
even though foo is all letters and bound nowhere. -/
theorem C3_counterexample :
    _eval.containsLettersOnly "foo".toList = true ∧
    List.lookup "foo".toList
        (_eval.bindBuiltins [] [("f".toList, fun _ => Except.ok (1 : ℚ))]).1 = none ∧
    List.lookup "foo".toList
        (_eval.bindBuiltins [] [("f".toList, fun _ => Except.ok (1 : ℚ))]).2 = none ∧
    eval "f(foo)".toList [] [("f".toList, fun _ => Except.ok (1 : ℚ))] = .ok 1 := by
  refine ⟨by decide, rfl, rfl, ?_⟩
  with_unfolding_all rfl

/-- C3 amended: an all-letters token bound neither in the variable table
nor in the function table fails with UndefinedVariable naming the token
whenever it is dispatched in ordinary expression position, and is never
silently kept or defaulted there, unless std::stod accepts it as an
inf/nan numeric literal (lowercased it starts with inf or nan): such
tokens pass Type::isNumber, are pushed to the output queue as numbers,
and the call succeeds; and a token read in function-argument position
(between a function's opening parenthesis and the matching closing
parenthesis) is captured as an argument, substituted if variable-bound
and otherwise kept literally, and never raises UndefinedVariable at that
point. -/
theorem C3_undefined_variable_strict :
    (∀ (vars : _eval.VarMap) (fns : _eval.FnMap) (s : _eval.ReadState)
        (t : _eval.Token), s.expectingArg = false → t ≠ [] →
        _eval.containsLettersOnly t = true → _eval.acceptsInfNan t = false →
        List.lookup t vars = none → List.lookup t fns = none →
        _eval.readStep vars fns s t = .error (.undefinedVar t)) ∧
    (∀ (vars : _eval.VarMap) (fns : _eval.FnMap) (s : _eval.ReadState)
        (t : _eval.Token), s.expectingArg = true → t ≠ [')'] →
        ∃ s2, _eval.readStep vars fns s t = .ok s2) ∧
    _eval.isNumber "inf".toList = true ∧
    _eval.isNumber "nan".toList = true ∧
    (∃ v, eval "inf".toList [] [] = .ok v) := by
  refine ⟨?_, ?_, by decide, by decide, ⟨_eval.infNanVal, by with_unfolding_all rfl⟩⟩
  · intro vars fns s t hexp hne hl hinf hv hf
    have hnum := lettersOnly_not_number t hl hne hinf
    obtain ⟨hcomma, hlp, hrp, hop, hsep⟩ := lettersOnly_structural t hl
    simp [_eval.readStep, hexp, hnum, hv, hf, hsep, hop, hlp, hrp, hl]
  · intro vars fns s t hexp hne
    exact ⟨{ s with fnArgs := s.fnArgs ++ [_eval.capArg vars t], expectingArg := false },
      by simp [_eval.readStep, hexp, hne]⟩

/-- Witness for C3 amended: foo errors in ordinary position and is
captured without error in argument position. -/
theorem C3_undefined_variable_witness :
    _eval.readStep [] []
        { q := [], opStack := [], fnToInvoke := [], expectingArg := false, fnArgs := [] }
        "foo".toList = .error (.undefinedVar "foo".toList) ∧
    ∃ s2, _eval.readStep [] []
        { q := [], opStack := [], fnToInvoke := "f".toList, expectingArg := true, fnArgs := [] }
        "foo".toList = .ok s2 :=
  ⟨C3_undefined_variable_strict.1 [] [] _ _ rfl (by decide) (by decide) (by decide) rfl rfl,
   C3_undefined_variable_strict.2.1 [] [] _ _ rfl (by decide)⟩

/-- C10: in function-call parsing each argument is exactly one token:
capture mode is entered on the function's opening parenthesis and on each
separator comma, captures the single next non-close-paren token
(substituted through the variable table when bound, else kept literally),
and immediately clears the flag, so every further token before the next
comma or close paren is dispatched as an ordinary expression token
(numbers to the output queue, operators through the pop loop onto the
operator stack); concretely f(1+2) with f constantly 7 parses so that 1
is the only captured argument while + and 2 are dispatched ordinarily,
giving 2 7 + in postfix and the value 9. -/
theorem C10_single_token_argument_capture :
    (∀ (vars : _eval.VarMap) (fns : _eval.FnMap) (s : _eval.ReadState)
        (t : _eval.Token), s.expectingArg = true → t ≠ [')'] →
        _eval.readStep vars fns s t =
          .ok { s with fnArgs := s.fnArgs ++ [_eval.capArg vars t]
                       expectingArg := false }) ∧
    (∀ (vars : _eval.VarMap) (fns : _eval.FnMap) (s : _eval.ReadState),
        s.expectingArg = false → s.fnToInvoke ≠ [] →
        List.lookup ['('] vars = none → List.lookup ['('] fns = none →
        _eval.readStep vars fns s ['('] = .ok { s with expectingArg := true }) ∧
    (∀ (vars : _eval.VarMap) (fns : _eval.FnMap) (s : _eval.ReadState),
        s.expectingArg = false →
        List.lookup [','] vars = none → List.lookup [','] fns = none →
        _eval.readStep vars fns s [','] = .ok { s with expectingArg := true }) ∧
    (∀ (vars : _eval.VarMap) (fns : _eval.FnMap) (s : _eval.ReadState)
        (t : _eval.Token), s.expectingArg = false → _eval.isNumber t = true →
        _eval.readStep vars fns s t = .ok { s with q := s.q ++ [t] }) ∧
    (∀ (vars : _eval.VarMap) (fns : _eval.FnMap) (s : _eval.ReadState)
        (t : _eval.Token), s.expectingArg = false →
        List.lookup t vars = none → List.lookup t fns = none →
        _eval.isOperator t = true →
        _eval.readStep vars fns s t =
          .ok { s with q := s.q ++ (_eval.opPops t s.opStack).1
                       opStack := t :: (_eval.opPops t s.opStack).2 }) ∧
    eval "f(1+2)".toList [] [("f".toList, fun _ => Except.ok (7 : ℚ))] = .ok 9 := by
  refine ⟨?_, ?_, ?_, ?_, ?_, by with_unfolding_all rfl⟩
  · intro vars fns s t hexp hne
    simp [_eval.readStep, hexp, hne]
  · intro vars fns s hexp hfn hv hf
    have h1 : _eval.isNumber ['('] = false := by decide
    have h2 : _eval.isFunctionSeperator ['('] = false := by decide
    have h3 : _eval.isOperator ['('] = false := by decide
    simp [_eval.readStep, hexp, hv, hf, h1, h2, h3, hfn]
  · intro vars fns s hexp hv hf
    have h1 : _eval.isNumber [','] = false := by decide
    have h2 : _eval.isFunctionSeperator [','] = true := by decide
    simp [_eval.readStep, hexp, hv, hf, h1, h2]
  · intro vars fns s t hexp hnum
    simp [_eval.readStep, hexp, hnum]
  · intro vars fns s t hexp hv hf hop
    have hnum : _eval.isNumber t = false := by
      rcases isOperator_cases t hop with rfl | rfl | rfl | rfl | rfl | rfl <;> decide
    have hsep : _eval.isFunctionSeperator t = false := by
      rcases isOperator_cases t hop with rfl | rfl | rfl | rfl | rfl | rfl <;> decide
    simp [_eval.readStep, hexp, hnum, hv, hf, hsep, hop]

/-- Witness for C10 at concrete parser states. -/
theorem C10_single_token_argument_capture_witness :
    _eval.readStep [] []
        { q := [], opStack := [], fnToInvoke := "f".toList, expectingArg := true, fnArgs := [] }
        ['1'] =
      .ok { q := [], opStack := [], fnToInvoke := "f".toList, expectingArg := false
            fnArgs := [] ++ [_eval.capArg [] ['1']] } ∧
    _eval.readStep [] []
        { q := [], opStack := [], fnToInvoke := "f".toList, expectingArg := false, fnArgs := [] }
        ['('] =
      .ok { q := [], opStack := [], fnToInvoke := "f".toList, expectingArg := true, fnArgs := [] } ∧
    _eval.readStep [] []
        { q := [], opStack := [], fnToInvoke := [], expectingArg := false, fnArgs := [] }
        [','] =
      .ok { q := [], opStack := [], fnToInvoke := [], expectingArg := true, fnArgs := [] } ∧
    _eval.readStep [] []
        { q := [], opStack := [], fnToInvoke := [], expectingArg := false, fnArgs := [] }
        ['2'] =
      .ok { q := [] ++ [['2']], opStack := [], fnToInvoke := [], expectingArg := false, fnArgs := [] } ∧
    _eval.readStep [] []
        { q := [], opStack := [], fnToInvoke := [], expectingArg := false, fnArgs := [] }
        ['+'] =
      .ok { q := [] ++ (_eval.opPops ['+'] []).1, opStack := ['+'] :: (_eval.opPops ['+'] []).2
            fnToInvoke := [], expectingArg := false, fnArgs := [] } :=
  ⟨C10_single_token_argument_capture.1 [] [] _ _ rfl (by decide),
   C10_single_token_argument_capture.2.1 [] [] _ rfl (by decide) rfl rfl,
   C10_single_token_argument_capture.2.2.1 [] [] _ rfl rfl rfl,
   C10_single_token_argument_capture.2.2.2.1 [] [] _ _ rfl (by decide),
   C10_single_token_argument_capture.2.2.2.2.1 [] [] _ _ rfl rfl rfl (by decide)⟩
